import Mathlib

/-!
# Verification of the bubble-shooter simulation engine

Shallow embedding of the TypeScript sources `src/game/BubbleShooterEngine.ts`
(which contains two concatenated engine variants, called V1 and V2 below:
V1 is the first class in the file, V2 the second) and
`src/game/AStarPathfinder.ts`.

Conventions of the embedding:
* JavaScript numbers are modelled as `ℚ`.  Every arithmetic expression the
  verified claims depend on is exact in IEEE double precision
  (in particular `20 * 1.7 = 34` holds exactly in doubles), so `ℚ` is
  bit-faithful for them.  `Math.round x` is `⌊x + 1/2⌋`.
* The grid is a total function from cells (`Fin gridRows × Fin gridCols`,
  mirroring the `gridRows × gridCols` array) to `Option Bubble`.
* The two recursive flood fills of the source (`findConnectedBubbles`,
  a queue-based BFS, and `markConnected`, a recursive DFS) are modelled by
  one worklist function `floodAux`, parameterised by the adjacency function
  and the cell predicate.  For `findConnectedBubbles` this is literally the
  source's loop; for `markConnected` the recursion order differs but the
  computed *set* of cells is the same, which is all the claims refer to.
  The worklist carries a fuel argument so that it is structurally
  recursive; `floodFuel` is a bound on the number of loop iterations
  (each iteration either consumes a queue entry or enlarges the visited
  set, which lives in a universe of `12 * 20 = 240` cells and each
  iteration enqueues at most 6 neighbours).
-/

set_option maxRecDepth 16384

namespace BubbleShooter

/-- `gridRows = 12` in both engine variants. -/
abbrev gridRows : Nat := 12

/-- `gridCols = 20` in both engine variants. -/
abbrev gridCols : Nat := 20

/-- `bubbleRadius = 20` in both engine variants. -/
def bubbleRadius : ℚ := 20

/-- A grid slot: row index and column index, bounded as the 2D array is. -/
abbrev Cell : Type := Fin gridRows × Fin gridCols

/-- The `Bubble` record of the source: pixel position, CSS color string,
radius, and the grid coordinates (absent on shooter bubbles). -/
structure Bubble where
  x : ℚ
  y : ℚ
  color : String
  radius : ℚ
  row : Option ℤ := none
  col : Option ℤ := none
deriving DecidableEq, Repr

/-- The `bubbleGrid` field: a `gridRows × gridCols` array of optional bubbles. -/
abbrev Grid : Type := Cell → Option Bubble

/-- Neighbour offsets for even rows (source: `getAdjacentPositions`). -/
def offsetsEven : List (ℤ × ℤ) := [(-1,-1),(-1,0),(0,-1),(0,1),(1,-1),(1,0)]

/-- Neighbour offsets for odd rows (source: `getAdjacentPositions`). -/
def offsetsOdd : List (ℤ × ℤ) := [(-1,0),(-1,1),(0,-1),(0,1),(1,0),(1,1)]

/-- V1 `getAdjacentPositions`: the six hex offsets for the row's parity,
filtered by `0 ≤ newRow < gridRows` and `0 ≤ newCol < gridCols - newRow % 2`. -/
def adjacentPositions (c : Cell) : List Cell :=
  let r : ℤ := (c.1 : ℤ)
  let k : ℤ := (c.2 : ℤ)
  (if c.1.val % 2 = 0 then offsetsEven else offsetsOdd).filterMap (fun d =>
    let nr := r + d.1
    let nc := k + d.2
    if h : 0 ≤ nr ∧ nr < 12 ∧ 0 ≤ nc ∧ nc < 20 - nr % 2 then
      some (⟨nr.toNat, by show nr.toNat < 12; omega⟩, ⟨nc.toNat, by show nc.toNat < 20; omega⟩)
    else none)

/-- V2 `getAdjacentPositions`: identical offsets but the column bound is
`newCol < gridCols` with no parity adjustment. -/
def adjacentPositionsV2 (c : Cell) : List Cell :=
  let r : ℤ := (c.1 : ℤ)
  let k : ℤ := (c.2 : ℤ)
  (if c.1.val % 2 = 0 then offsetsEven else offsetsOdd).filterMap (fun d =>
    let nr := r + d.1
    let nc := k + d.2
    if h : 0 ≤ nr ∧ nr < 12 ∧ 0 ≤ nc ∧ nc < 20 then
      some (⟨nr.toNat, by show nr.toNat < 12; omega⟩, ⟨nc.toNat, by show nc.toNat < 20; omega⟩)
    else none)

/-- `true` iff the slot holds a bubble (`this.bubbleGrid[row][col]` truthiness). -/
def occupiedB (g : Grid) (d : Cell) : Bool := (g d).isSome

/-- `true` iff the slot holds a bubble of the given color
(`bubble && bubble.color === color`). -/
def coloredB (g : Grid) (color : String) (d : Cell) : Bool :=
  match g d with
  | some b => b.color == color
  | none => false

/-- Worklist flood fill common to `findConnectedBubbles` (queue-based BFS over
same-colored bubbles) and `markConnected` (recursive DFS over occupied
bubbles).  Pops the head of the queue; skips it when already visited;
otherwise marks it visited and, when it satisfies `P`, selects it and
enqueues its not-yet-visited neighbours.  Returns (visited, selected). -/
def floodAux (adj : Cell → List Cell) (P : Cell → Bool) :
    Nat → Finset Cell → List Cell → List Cell → Finset Cell × List Cell
  | _, visited, [], selected => (visited, selected)
  | 0, visited, _ :: _, selected => (visited, selected)
  | fuel+1, visited, c :: rest, selected =>
    if c ∈ visited then floodAux adj P fuel visited rest selected
    else if P c then
      floodAux adj P fuel (insert c visited)
        (rest ++ (adj c).filter (fun p => decide (p ∉ insert c visited)))
        (selected ++ [c])
    else floodAux adj P fuel (insert c visited) rest selected

/-- Fuel sufficient for `floodAux` to drain its queue: each iteration either
removes a queue entry or adds a cell to `visited` (bounded by 240) while
enqueueing at most 6 neighbours. -/
def floodFuel (starts : List Cell) : Nat := 7 * 240 + starts.length + 1

/-- Run the flood fill from the given start cells and return the selected
cells. -/
def floodRun (adj : Cell → List Cell) (P : Cell → Bool) (starts : List Cell) :
    List Cell :=
  (floodAux adj P (floodFuel starts) ∅ starts []).2

/-- One hop of the flood fill: both endpoints satisfy `P` and they are
adjacent. -/
def floodStep (adj : Cell → List Cell) (P : Cell → Bool) (u v : Cell) : Prop :=
  P u = true ∧ P v = true ∧ v ∈ adj u

/-- Termination/fuel measure for the flood fill worklist. -/
def floodMeasure (v : Finset Cell) (q : List Cell) : Nat :=
  7 * (240 - v.card) + q.length

theorem cell_card : Fintype.card Cell = 240 := by
  rw [Fintype.card_prod, Fintype.card_fin, Fintype.card_fin]
  rfl

theorem cell_finset_card_le (v : Finset Cell) : v.card ≤ 240 :=
  le_trans (Finset.card_le_univ v) (le_of_eq cell_card)

section Flood

variable (adj : Cell → List Cell) (P : Cell → Bool)

theorem floodAux_visited_mono :
    ∀ fuel v q sel, v ⊆ (floodAux adj P fuel v q sel).1 := by
  intro fuel
  induction fuel with
  | zero => intro v q sel; cases q <;> simp [floodAux]
  | succ fuel ih =>
    intro v q sel
    cases q with
    | nil => simp [floodAux]
    | cons c rest =>
      simp only [floodAux]
      split
      · exact ih v rest sel
      · split
        · exact (Finset.subset_insert c v).trans (ih _ _ _)
        · exact (Finset.subset_insert c v).trans (ih _ _ _)

theorem floodAux_sel_mono :
    ∀ fuel v q sel x, x ∈ sel → x ∈ (floodAux adj P fuel v q sel).2 := by
  intro fuel
  induction fuel with
  | zero => intro v q sel x hx; cases q <;> simpa [floodAux] using hx
  | succ fuel ih =>
    intro v q sel x hx
    cases q with
    | nil => simpa [floodAux] using hx
    | cons c rest =>
      simp only [floodAux]
      split
      · exact ih _ _ _ _ hx
      · split
        · exact ih _ _ _ _ (List.mem_append_left _ hx)
        · exact ih _ _ _ _ hx

/-- The selected list never contains duplicates: a cell is selected only at
the moment it enters the visited set. -/
theorem floodAux_sel_nodup :
    ∀ fuel v q sel, sel.Nodup → (∀ x ∈ sel, x ∈ v) →
      (floodAux adj P fuel v q sel).2.Nodup ∧
      ∀ x ∈ (floodAux adj P fuel v q sel).2,
        x ∈ (floodAux adj P fuel v q sel).1 := by
  intro fuel
  induction fuel with
  | zero =>
    intro v q sel h1 h2
    cases q with
    | nil => exact ⟨by simpa [floodAux] using h1, by simpa [floodAux] using h2⟩
    | cons c rest =>
      exact ⟨by simpa [floodAux] using h1, by simpa [floodAux] using h2⟩
  | succ fuel ih =>
    intro v q sel h1 h2
    cases q with
    | nil => exact ⟨by simpa [floodAux] using h1, by simpa [floodAux] using h2⟩
    | cons c rest =>
      simp only [floodAux]
      split
      · exact ih _ _ _ h1 h2
      · rename_i hcv
        split
        · refine ih _ _ _ ?_ ?_
          · rw [List.nodup_append]
            refine ⟨h1, List.nodup_singleton c, ?_⟩
            intro x hx hxc
            obtain rfl := List.mem_singleton.mp hxc
            exact hcv (h2 _ hx)
          · intro x hx
            rcases List.mem_append.mp hx with h | h
            · exact Finset.mem_insert_of_mem (h2 x h)
            · obtain rfl := List.mem_singleton.mp h
              exact Finset.mem_insert_self _ _
        · refine ih _ _ _ h1 ?_
          intro x hx
          exact Finset.mem_insert_of_mem (h2 x hx)

theorem floodRun_nodup (starts : List Cell) : (floodRun adj P starts).Nodup :=
  (floodAux_sel_nodup adj P _ _ _ _ List.nodup_nil (by simp)).1

/-- The measure bound carries over to the recursive call that enqueues
neighbours. -/
theorem floodMeasure_push {v : Finset Cell} {c : Cell} {rest : List Cell}
    {fuel : Nat} (hadj6 : (adj c).length ≤ 6) (hcv : c ∉ v)
    (hμ : floodMeasure v (c :: rest) ≤ fuel + 1) :
    floodMeasure (insert c v)
      (rest ++ (adj c).filter (fun p => decide (p ∉ insert c v))) ≤ fuel := by
  have hins : (insert c v).card = v.card + 1 := Finset.card_insert_of_not_mem hcv
  have hcard' := cell_finset_card_le (insert c v)
  have hflt : ((adj c).filter (fun p => decide (p ∉ insert c v))).length ≤ 6 :=
    le_trans (List.length_filter_le _ _) hadj6
  simp only [floodMeasure, List.length_cons, List.length_append] at hμ ⊢
  omega

/-- With enough fuel, every queued cell ends up visited. -/
theorem floodAux_queue_visited (hadj : ∀ c, (adj c).length ≤ 6) :
    ∀ fuel v q sel, floodMeasure v q ≤ fuel →
      ∀ c ∈ q, c ∈ (floodAux adj P fuel v q sel).1 := by
  intro fuel
  induction fuel with
  | zero =>
    intro v q sel hμ c hc
    exfalso
    have hq : q.length = 0 := by
      simp only [floodMeasure] at hμ
      omega
    simp [List.length_eq_zero.mp hq] at hc
  | succ fuel ih =>
    intro v q sel hμ x hx
    cases q with
    | nil => simp at hx
    | cons c rest =>
      have hcard := cell_finset_card_le v
      simp only [floodAux]
      split
      · rename_i hcv
        rcases List.mem_cons.mp hx with rfl | hx'
        · exact floodAux_visited_mono adj P _ _ _ _ hcv
        · refine ih _ _ _ ?_ _ hx'
          simp only [floodMeasure, List.length_cons] at hμ ⊢
          omega
      · rename_i hcv
        have hins : (insert c v).card = v.card + 1 := Finset.card_insert_of_not_mem hcv
        have hcard' := cell_finset_card_le (insert c v)
        split
        · rcases List.mem_cons.mp hx with rfl | hx'
          · exact floodAux_visited_mono adj P _ _ _ _ (Finset.mem_insert_self x v)
          · exact ih _ _ _ (floodMeasure_push adj (hadj c) hcv hμ) _
              (List.mem_append_left _ hx')
        · rcases List.mem_cons.mp hx with rfl | hx'
          · exact floodAux_visited_mono adj P _ _ _ _ (Finset.mem_insert_self x v)
          · refine ih _ _ _ ?_ _ hx'
            simp only [floodMeasure, List.length_cons] at hμ ⊢
            omega

/-- Every visited cell satisfying `P` is selected, given that this held of the
initial state. -/
theorem floodAux_visited_selected :
    ∀ fuel v q sel, (∀ x ∈ v, P x = true → x ∈ sel) →
      ∀ x ∈ (floodAux adj P fuel v q sel).1, P x = true →
        x ∈ (floodAux adj P fuel v q sel).2 := by
  intro fuel
  induction fuel with
  | zero =>
    intro v q sel hinv x hx hPx
    cases q <;> simpa [floodAux] using hinv x (by simpa [floodAux] using hx) hPx
  | succ fuel ih =>
    intro v q sel hinv
    cases q with
    | nil =>
      intro x hx hPx
      simpa [floodAux] using hinv x (by simpa [floodAux] using hx) hPx
    | cons c rest =>
      simp only [floodAux]
      split
      · exact ih _ _ _ hinv
      · rename_i hcv
        split
        · rename_i hPc
          refine ih _ _ _ ?_
          intro x hx hPx
          rcases Finset.mem_insert.mp hx with rfl | hx'
          · exact List.mem_append_right _ (List.mem_singleton_self x)
          · exact List.mem_append_left _ (hinv x hx' hPx)
        · rename_i hPc
          refine ih _ _ _ ?_
          intro x hx hPx
          rcases Finset.mem_insert.mp hx with rfl | hx'
          · exact absurd hPx hPc
          · exact hinv x hx' hPx

/-- Neighbour-closure: at the end of the run, every neighbour of a selected
cell is visited (given enough fuel and the corresponding invariant). -/
theorem floodAux_closure (hadj : ∀ c, (adj c).length ≤ 6) :
    ∀ fuel v q sel, floodMeasure v q ≤ fuel →
      (∀ u ∈ sel, ∀ p ∈ adj u, p ∈ v ∨ p ∈ q) →
      ∀ u ∈ (floodAux adj P fuel v q sel).2, ∀ p ∈ adj u,
        p ∈ (floodAux adj P fuel v q sel).1 := by
  intro fuel
  induction fuel with
  | zero =>
    intro v q sel hμ hinv u hu p hp
    cases q with
    | nil =>
      simp only [floodAux] at hu ⊢
      rcases hinv u hu p hp with h | h
      · exact h
      · simp at h
    | cons c rest =>
      exfalso
      simp only [floodMeasure, List.length_cons] at hμ
      omega
  | succ fuel ih =>
    intro v q sel hμ hinv
    cases q with
    | nil =>
      intro u hu p hp
      simp only [floodAux] at hu ⊢
      rcases hinv u hu p hp with h | h
      · exact h
      · simp at h
    | cons c rest =>
      have hcard := cell_finset_card_le v
      simp only [floodAux]
      split
      · rename_i hcv
        refine ih _ _ _ ?_ ?_
        · simp only [floodMeasure, List.length_cons] at hμ ⊢
          omega
        · intro u hu p hp
          rcases hinv u hu p hp with h | h
          · exact Or.inl h
          · rcases List.mem_cons.mp h with rfl | h'
            · exact Or.inl hcv
            · exact Or.inr h'
      · rename_i hcv
        split
        · rename_i hPc
          refine ih _ _ _ (floodMeasure_push adj (hadj c) hcv hμ) ?_
          intro u hu p hp
          rcases List.mem_append.mp hu with hu' | hu'
          · rcases hinv u hu' p hp with h | h
            · exact Or.inl (Finset.mem_insert_of_mem h)
            · rcases List.mem_cons.mp h with rfl | h'
              · exact Or.inl (Finset.mem_insert_self p v)
              · exact Or.inr (List.mem_append_left _ h')
          · have : u = c := by simpa using hu'
            subst this
            by_cases hpv : p ∈ insert u v
            · exact Or.inl hpv
            · refine Or.inr (List.mem_append_right _ ?_)
              exact List.mem_filter.mpr ⟨hp, by simpa using hpv⟩
        · rename_i hPc
          refine ih _ _ _ ?_ ?_
          · have hins : (insert c v).card = v.card + 1 :=
              Finset.card_insert_of_not_mem hcv
            have hcard' := cell_finset_card_le (insert c v)
            simp only [floodMeasure, List.length_cons] at hμ ⊢
            omega
          · intro u hu p hp
            rcases hinv u hu p hp with h | h
            · exact Or.inl (Finset.mem_insert_of_mem h)
            · rcases List.mem_cons.mp h with rfl | h'
              · exact Or.inl (Finset.mem_insert_self p v)
              · exact Or.inr h'

/-- Soundness: every selected cell satisfies `P` and is reachable from some
start, provided the queue invariant holds. -/
theorem floodAux_sound (S : List Cell) :
    ∀ fuel v q sel,
      (∀ x ∈ sel, P x = true ∧ ∃ s ∈ S, Relation.ReflTransGen (floodStep adj P) s x) →
      (∀ c ∈ q, c ∈ S ∨ ∃ u, P u = true ∧
        (∃ s ∈ S, Relation.ReflTransGen (floodStep adj P) s u) ∧ c ∈ adj u) →
      ∀ x ∈ (floodAux adj P fuel v q sel).2,
        P x = true ∧ ∃ s ∈ S, Relation.ReflTransGen (floodStep adj P) s x := by
  intro fuel
  induction fuel with
  | zero =>
    intro v q sel hsel hq x hx
    cases q <;> exact hsel x (by simpa [floodAux] using hx)
  | succ fuel ih =>
    intro v q sel hsel hq
    cases q with
    | nil =>
      intro x hx
      exact hsel x (by simpa [floodAux] using hx)
    | cons c rest =>
      simp only [floodAux]
      split
      · exact ih _ _ _ hsel (fun d hd => hq d (List.mem_cons_of_mem _ hd))
      · rename_i hcv
        split
        · rename_i hPc
          have hreach : ∃ s ∈ S, Relation.ReflTransGen (floodStep adj P) s c := by
            rcases hq c (List.mem_cons_self c rest) with h | ⟨u, hPu, ⟨s, hs, hru⟩, hcu⟩
            · exact ⟨c, h, Relation.ReflTransGen.refl⟩
            · exact ⟨s, hs, hru.tail ⟨hPu, hPc, hcu⟩⟩
          refine ih _ _ _ ?_ ?_
          · intro x hx
            rcases List.mem_append.mp hx with hx' | hx'
            · exact hsel x hx'
            · have : x = c := by simpa using hx'
              subst this
              exact ⟨hPc, hreach⟩
          · intro d hd
            rcases List.mem_append.mp hd with hd' | hd'
            · exact hq d (List.mem_cons_of_mem _ hd')
            · exact Or.inr ⟨c, hPc, hreach, (List.mem_filter.mp hd').1⟩
        · exact ih _ _ _ hsel (fun d hd => hq d (List.mem_cons_of_mem _ hd))

/-- Characterisation of the flood fill: a cell is selected exactly when it
satisfies `P` and is reachable from a start cell through cells satisfying
`P`. -/
theorem floodRun_mem (hadj : ∀ c, (adj c).length ≤ 6)
    (starts : List Cell) (d : Cell) :
    d ∈ floodRun adj P starts ↔
      P d = true ∧ ∃ s ∈ starts, Relation.ReflTransGen (floodStep adj P) s d := by
  simp only [floodRun]
  constructor
  · intro hd
    exact floodAux_sound adj P starts _ _ _ _ (by simp)
      (fun c hc => Or.inl hc) d hd
  · rintro ⟨hPd, s, hs, hrtg⟩
    have hμ : floodMeasure ∅ starts ≤ floodFuel starts := by
      simp [floodMeasure, floodFuel]
    have hvisited : ∀ x ∈ (floodAux adj P (floodFuel starts) ∅ starts []).1,
        P x = true → x ∈ (floodAux adj P (floodFuel starts) ∅ starts []).2 :=
      floodAux_visited_selected adj P _ _ _ _ (by simp)
    have hclosure :=
      floodAux_closure adj P hadj (floodFuel starts) ∅ starts [] hμ (by simp)
    have hqv := floodAux_queue_visited adj P hadj (floodFuel starts) ∅ starts [] hμ
    have main : ∀ e, Relation.ReflTransGen (floodStep adj P) s e → P e = true →
        e ∈ (floodAux adj P (floodFuel starts) ∅ starts []).2 := by
      intro e hr
      induction hr with
      | refl => intro hPs; exact hvisited s (hqv s hs) hPs
      | tail hru hstep ih =>
        intro hPe
        obtain ⟨hPu, hPe', hadj'⟩ := hstep
        exact hvisited _ (hclosure _ (ih hPu) _ hadj') hPe
    exact main d hrtg hPd

end Flood

theorem adjacentPositions_length_le (c : Cell) :
    (adjacentPositions c).length ≤ 6 := by
  unfold adjacentPositions
  refine le_trans (List.length_filterMap_le _ _) ?_
  split <;> simp [offsetsEven, offsetsOdd]

theorem adjacentPositionsV2_length_le (c : Cell) :
    (adjacentPositionsV2 c).length ≤ 6 := by
  unfold adjacentPositionsV2
  refine le_trans (List.length_filterMap_le _ _) ?_
  split <;> simp [offsetsEven, offsetsOdd]

/-- V1 `findConnectedBubbles(startRow, startCol, color)`: BFS from the start
cell over bubbles of the given color.  The source returns copies of the
matched bubbles together with their row/col; the embedding returns the
matched cells, which is what `checkMatches` consumes. -/
def findConnectedBubbles (g : Grid) (start : Cell) (color : String) :
    List Cell :=
  floodRun adjacentPositions (coloredB g color) [start]

/-- V2 `findConnectedBubbles`: identical except for the V2 adjacency bound. -/
def findConnectedBubblesV2 (g : Grid) (start : Cell) (color : String) :
    List Cell :=
  floodRun adjacentPositionsV2 (coloredB g color) [start]

/-- The occupied cells of row 0, in column order — the start cells of the
`markConnected` loop in `findFloatingBubbles`. -/
def topRowOccupied (g : Grid) : List Cell :=
  (List.finRange gridCols).filterMap (fun k =>
    if (g ((0 : Fin gridRows), k)).isSome then some ((0 : Fin gridRows), k)
    else none)

/-- The set of cells marked by the V1 `markConnected` recursion started from
every occupied top-row cell: occupied cells reachable from row 0 through
occupied cells.  The source computes this set by recursive DFS; the
embedding computes the same set with the worklist `floodRun`. -/
def connectedToTopRow (g : Grid) : List Cell :=
  floodRun adjacentPositions (occupiedB g) (topRowOccupied g)

/-- V2 counterpart of `connectedToTopRow` (V2 adjacency bound). -/
def connectedToTopRowV2 (g : Grid) : List Cell :=
  floodRun adjacentPositionsV2 (occupiedB g) (topRowOccupied g)

/-- All cells in row-major order, as the source's nested `for` loops visit
them. -/
def allCells : List Cell :=
  (List.finRange gridRows).flatMap (fun r =>
    (List.finRange gridCols).map (fun k => (r, k)))

/-- V1 `findFloatingBubbles`: occupied cells not marked as connected to the
top row. -/
def findFloatingBubbles (g : Grid) : List Cell :=
  allCells.filter (fun d => occupiedB g d && decide (d ∉ connectedToTopRow g))

/-- V2 `findFloatingBubbles` (V2 adjacency bound). -/
def findFloatingBubblesV2 (g : Grid) : List Cell :=
  allCells.filter (fun d => occupiedB g d && decide (d ∉ connectedToTopRowV2 g))

/-- Setting `this.bubbleGrid[match.row][match.col] = null` for every listed
cell. -/
def eraseCells (g : Grid) (l : List Cell) : Grid :=
  fun d => if d ∈ l then none else g d

/-- Number of occupied slots (`countBubblesLeft`'s `count`). -/
def bubbleCount (g : Grid) : Nat :=
  (allCells.filter (fun d => occupiedB g d)).length

/-- Largest row index holding a bubble, 0 when the grid is empty
(V2 `countBubblesLeft`'s `maxRow`). -/
def maxOccupiedRow (g : Grid) : Nat :=
  allCells.foldl (fun m d => if occupiedB g d && decide (m < d.1.val) then d.1.val else m) 0

/-- V1 `countBubblesLeft` game-over update: the flag is set when the grid is
empty; there is no bottom-row test in V1. -/
def countBubblesLeftV1 (g : Grid) (gameOver : Bool) : Bool :=
  gameOver || (bubbleCount g == 0)

/-- V2 `countBubblesLeft` game-over update: the flag is set when the grid is
empty or some bubble sits in row `gridRows - 1`. -/
def countBubblesLeftV2 (g : Grid) (gameOver : Bool) : Bool :=
  gameOver || (bubbleCount g == 0 || decide (gridRows - 1 ≤ maxOccupiedRow g))

/-- The game-stats record of the source (`this.stats`). -/
structure GameStats where
  score : Nat
  level : Nat
  bubblesLeft : Nat
  shots : Nat
  astarCalculations : Nat
  pathLength : Nat
  accuracy : ℤ
deriving DecidableEq, Repr

/-- V1 `checkMatches(row, col)`: BFS the same-colored component of the cell;
when it has at least 3 members, remove it, remove the floating bubbles of
the resulting grid, add `matches*100 + floating*50` points and rerun
`countBubblesLeft` (which in V1 flags game over only on an empty grid).
Returns the new grid, stats and game-over flag. -/
def checkMatchesV1 (g : Grid) (c : Cell) (st : GameStats) (gameOver : Bool) :
    Grid × GameStats × Bool :=
  match g c with
  | none => (g, st, gameOver)
  | some b =>
    let found := findConnectedBubbles g c b.color
    if 3 ≤ found.length then
      let g1 := eraseCells g found
      let floating := findFloatingBubbles g1
      let g2 := eraseCells g1 floating
      let pts := found.length * 100 + floating.length * 50
      (g2,
       { st with score := st.score + pts, bubblesLeft := bubbleCount g2 },
       countBubblesLeftV1 g2 gameOver)
    else (g, st, gameOver)

/-- V2 `checkMatches(row, col)`: as V1 but with the V2 adjacency bound and
the V2 `countBubblesLeft` (empty grid or occupied bottom row). -/
def checkMatchesV2 (g : Grid) (c : Cell) (st : GameStats) (gameOver : Bool) :
    Grid × GameStats × Bool :=
  match g c with
  | none => (g, st, gameOver)
  | some b =>
    let found := findConnectedBubblesV2 g c b.color
    if 3 ≤ found.length then
      let g1 := eraseCells g found
      let floating := findFloatingBubblesV2 g1
      let g2 := eraseCells g1 floating
      let pts := found.length * 100 + floating.length * 50
      (g2,
       { st with score := st.score + pts, bubblesLeft := bubbleCount g2 },
       countBubblesLeftV2 g2 gameOver)
    else (g, st, gameOver)

/-! ## Pixel/grid coordinate transforms

`x = col * (2r) + (row % 2) * r + r` and `y = row * (r * 1.7) + r`, with
`r = 20`; the reverse transform rounds `(x - r) / (2r)` and
`(y - r) / (r * 1.7)` (source: `createLevel`, `handleDirectPlacement`).
With `r = 20` every value involved is exactly representable and exactly
computed in IEEE doubles (in particular `20 * 1.7 = 34` exactly), so the
rational model below is bit-faithful. -/

/-- `Math.round`: round half towards positive infinity. -/
def jsRound (q : ℚ) : ℤ := ⌊q + 1/2⌋

/-- Pixel x-coordinate of a grid slot. -/
def gridToPixelX (r k : ℤ) : ℚ :=
  (k : ℚ) * (bubbleRadius * 2) + ((r % 2 : ℤ) : ℚ) * bubbleRadius + bubbleRadius

/-- Pixel y-coordinate of a grid slot. -/
def gridToPixelY (r : ℤ) : ℚ :=
  (r : ℚ) * (bubbleRadius * (17/10)) + bubbleRadius

/-- The rounding inverse used by `handleDirectPlacement`:
`row = round((y - r) / (r*1.7))`, `col = round((x - r) / (2r))`. -/
def pixelToGrid (x y : ℚ) : ℤ × ℤ :=
  (jsRound ((y - bubbleRadius) / (bubbleRadius * (17/10))),
   jsRound ((x - bubbleRadius) / (bubbleRadius * 2)))

/-- Lattice pixel position of a cell. -/
def cellPixel (d : Cell) : ℚ × ℚ :=
  (gridToPixelX (d.1 : ℤ) (d.2 : ℤ), gridToPixelY (d.1 : ℤ))

/-- The bubble record inserted into the grid on placement. -/
def mkGridBubble (d : Cell) (color : String) : Bubble :=
  { x := gridToPixelX (d.1 : ℤ) (d.2 : ℤ), y := gridToPixelY (d.1 : ℤ),
    color := color, radius := bubbleRadius,
    row := some (d.1 : ℤ), col := some (d.2 : ℤ) }

/-- `this.bubbleGrid[row][col] = { x, y, color, radius, row, col }`. -/
def placeBubble (g : Grid) (d : Cell) (color : String) : Grid :=
  fun e => if e = d then some (mkGridBubble d color) else g e

/-- Squared Euclidean distance.  The source compares
`Math.sqrt(dx*dx+dy*dy)` values with `<`; since `Real.sqrt` is strictly
monotone on nonnegative arguments, comparing the squares selects exactly
the same cells, so the embedding stays in `ℚ`. -/
def distSq (a b : ℚ × ℚ) : ℚ := (a.1 - b.1)^2 + (a.2 - b.2)^2

theorem mem_allCells (d : Cell) : d ∈ allCells := by
  unfold allCells
  simp only [List.mem_flatMap, List.mem_map, List.mem_finRange]
  exact ⟨d.1, trivial, d.2, trivial, rfl⟩

theorem topRowOccupied_mem (g : Grid) (t : Cell) :
    t ∈ topRowOccupied g ↔ t.1 = 0 ∧ occupiedB g t = true := by
  unfold topRowOccupied
  rw [List.mem_filterMap]
  constructor
  · rintro ⟨k, _, hk⟩
    by_cases hocc : (g ((0 : Fin gridRows), k)).isSome
    · rw [if_pos hocc] at hk
      obtain rfl : ((0 : Fin gridRows), k) = t := Option.some_injective _ hk
      exact ⟨rfl, hocc⟩
    · rw [if_neg hocc] at hk
      exact absurd hk (by simp)
  · rintro ⟨h0, hocc⟩
    obtain ⟨r, k⟩ := t
    obtain rfl : r = 0 := h0
    exact ⟨k, List.mem_finRange k, by
      unfold occupiedB at hocc
      rw [if_pos hocc]⟩

/-! ## Claim C1: the pop step removes exactly the same-colored connected
component of the placed cell -/

/-- Specification of the match BFS: a cell is matched exactly when it holds
a bubble of the placed color and is connected to the placed cell through
same-colored bubbles via hex adjacency; the pop erases exactly the
matched cells, and in particular same-colored bubbles not connected to the
placed cell are untouched.  The matched list is duplicate-free, so its
length (which `checkMatches` compares against 3) is the size of the
component. -/
def PopSpec (g : Grid) (c : Cell) (color : String) : Prop :=
  (findConnectedBubbles g c color).Nodup
  ∧ (∀ d, d ∈ findConnectedBubbles g c color ↔
      coloredB g color d = true ∧
      Relation.ReflTransGen
        (floodStep adjacentPositions (coloredB g color)) c d)
  ∧ (∀ d, eraseCells g (findConnectedBubbles g c color) d =
      if d ∈ findConnectedBubbles g c color then none else g d)
  ∧ (∀ d, coloredB g color d = true →
      ¬ Relation.ReflTransGen
          (floodStep adjacentPositions (coloredB g color)) c d →
      eraseCells g (findConnectedBubbles g c color) d = g d)

/-- C1.  For every grid and every cell holding a bubble, the cells matched by
`findConnectedBubbles` are exactly the hex-adjacency connected component of
same-colored bubbles containing that cell; the pop step removes exactly
those cells (bubbles of the same color not connected to the cell are never
removed by it); and when the component has fewer than 3 members
`checkMatches` leaves grid, stats and game-over flag unchanged. -/
theorem c1_pop_exact_component (g : Grid) (c : Cell) (b : Bubble)
    (st : GameStats) (go : Bool) (hb : g c = some b) :
    PopSpec g c b.color ∧
    ((findConnectedBubbles g c b.color).length < 3 →
      checkMatchesV1 g c st go = (g, st, go)) := by
  have key : ∀ d, d ∈ findConnectedBubbles g c b.color ↔
      coloredB g b.color d = true ∧
      Relation.ReflTransGen
        (floodStep adjacentPositions (coloredB g b.color)) c d := by
    intro d
    unfold findConnectedBubbles
    rw [floodRun_mem _ _ adjacentPositions_length_le]
    simp only [List.mem_singleton, exists_eq_left]
  refine ⟨⟨floodRun_nodup adjacentPositions (coloredB g b.color) [c],
    key, fun d => rfl, ?_⟩, ?_⟩
  · intro d _ hnr
    unfold eraseCells
    rw [if_neg]
    intro hmem
    exact hnr ((key d).mp hmem).2
  · intro hlt
    unfold checkMatchesV1
    rw [hb]
    simp only
    rw [if_neg (by omega)]

/-! ## Claim C2: floating bubbles are exactly the occupied cells not
connected to the ceiling row through occupied cells -/

/-- Specification of floating detection: a cell is reported floating exactly
when it is occupied and not reachable from any occupied row-0 cell through
occupied cells via hex adjacency, and the drop step erases exactly the
reported cells. -/
def FloatingSpec (g : Grid) : Prop :=
  ∀ d, (d ∈ findFloatingBubbles g ↔
      occupiedB g d = true ∧
      ¬ ∃ t : Cell, t.1 = 0 ∧ occupiedB g t = true ∧
        Relation.ReflTransGen
          (floodStep adjacentPositions (occupiedB g)) t d)
    ∧ (d ∈ findFloatingBubbles g →
        eraseCells g (findFloatingBubbles g) d = none)
    ∧ (d ∉ findFloatingBubbles g →
        eraseCells g (findFloatingBubbles g) d = g d)

/-- C2.  On every grid, `findFloatingBubbles` returns exactly the occupied
cells with no path of occupied cells (under hex adjacency) to an occupied
cell of row 0, and the subsequent removal erases exactly those cells.
In particular a sub-cluster whose sole connection to row 0 was a removed
bridge bubble is reported floating in its entirety. -/
theorem c2_floating_exact (g : Grid) : FloatingSpec g := by
  intro d
  have hconn : ∀ e : Cell, e ∈ connectedToTopRow g ↔
      occupiedB g e = true ∧ ∃ t ∈ topRowOccupied g,
        Relation.ReflTransGen
          (floodStep adjacentPositions (occupiedB g)) t e := by
    intro e
    unfold connectedToTopRow
    exact floodRun_mem _ _ adjacentPositions_length_le _ e
  refine ⟨?_, ?_, ?_⟩
  · unfold findFloatingBubbles
    rw [List.mem_filter]
    simp only [Bool.and_eq_true, decide_eq_true_eq]
    constructor
    · rintro ⟨_, hocc, hnc⟩
      refine ⟨hocc, ?_⟩
      rintro ⟨t, ht0, htocc, hrtg⟩
      exact hnc ((hconn d).mpr
        ⟨hocc, t, (topRowOccupied_mem g t).mpr ⟨ht0, htocc⟩, hrtg⟩)
    · rintro ⟨hocc, hne⟩
      refine ⟨mem_allCells d, hocc, ?_⟩
      intro hc
      rcases (hconn d).mp hc with ⟨_, t, htop, hrtg⟩
      rcases (topRowOccupied_mem g t).mp htop with ⟨ht0, htocc⟩
      exact hne ⟨t, ht0, htocc, hrtg⟩
  · intro hmem
    unfold eraseCells
    rw [if_pos hmem]
  · intro hmem
    unfold eraseCells
    rw [if_neg hmem]

/-- The red palette color `'#ff6b6b'`. -/
def red : String := "#ff6b6b"

/-- The teal palette color `'#4ecdc4'`. -/
def teal : String := "#4ecdc4"

/-- Initial stats of the source engine. -/
def stats0 : GameStats :=
  { score := 0, level := 1, bubblesLeft := 0, shots := 0,
    astarCalculations := 0, pathLength := 0, accuracy := 100 }

/-- Concrete grid for the C1 witness: a 3-cell red chain in row 0 (the cell
`(0,2)` plays the just-placed bubble) and a disconnected 2-cell red chain
in row 5. -/
def gC1 : Grid := fun d =>
  if d = ((0, 0) : Cell) ∨ d = ((0, 1) : Cell) ∨ d = ((0, 2) : Cell)
     ∨ d = ((5, 5) : Cell) ∨ d = ((5, 6) : Cell)
  then some (mkGridBubble d red) else none

theorem c1_pop_exact_component_witness :
    PopSpec gC1 ((0, 2) : Cell) red ∧
    ((findConnectedBubbles gC1 ((0, 2) : Cell) red).length < 3 →
      checkMatchesV1 gC1 ((0, 2) : Cell) stats0 false = (gC1, stats0, false)) :=
  c1_pop_exact_component gC1 ((0, 2) : Cell)
    (mkGridBubble ((0, 2) : Cell) red) stats0 false rfl

theorem c2_floating_exact_witness : FloatingSpec gC1 :=
  c2_floating_exact gC1

/-! ## Claim C3: the pixel-to-grid rounding inverse of the grid-to-pixel
transform

The transform (source `createLevel` and placement sites) is
`x = col*2r + (row%2)*r + r`, `y = row*(r*1.7) + r`; the rounding inverse
(source `handleDirectPlacement`) is `col = round((x-r)/(2r))`,
`row = round((y-r)/(r*1.7))`.  On odd rows the stagger contributes
`(row%2)*r = r`, so `(x-r)/(2r) = col + 1/2`, and `Math.round` (half up)
returns `col + 1`: the round trip is exact only on even rows.  (For the
rows `0 ≤ row < 12` of the grid, `Int.emod` agrees with the JS `%`.) -/

theorem jsRound_intCast (n : ℤ) : jsRound ((n : ℚ)) = n := by
  unfold jsRound
  rw [Int.floor_int_add]
  norm_num

/-- C3 (amended).  For every cell, applying the rounding inverse to the
grid-to-pixel transform returns the row unchanged and the column shifted
by the row's parity: `(row, col) ↦ (row, col + row % 2)`.  The round trip
is exact precisely on even rows. -/
theorem c3_roundtrip_parity (r c : ℤ) :
    pixelToGrid (gridToPixelX r c) (gridToPixelY r) = (r, c + r % 2) := by
  have hy : (gridToPixelY r - bubbleRadius) / (bubbleRadius * (17/10))
      = (r : ℚ) := by
    unfold gridToPixelY bubbleRadius
    field_simp
    ring
  have hx : (gridToPixelX r c - bubbleRadius) / (bubbleRadius * 2)
      = (c : ℚ) + ((r % 2 : ℤ) : ℚ) / 2 := by
    unfold gridToPixelX bubbleRadius
    field_simp
    ring
  unfold pixelToGrid
  rw [hy, hx, jsRound_intCast]
  rcases Int.emod_two_eq_zero_or_one r with h | h
  · rw [h]
    norm_num [jsRound_intCast]
  · rw [h]
    have : (c : ℚ) + ((1 : ℤ) : ℚ) / 2 + 1/2 = ((c + 1 : ℤ) : ℚ) := by
      push_cast
      ring
    unfold jsRound
    rw [this, Int.floor_intCast]

theorem c3_roundtrip_parity_witness :
    pixelToGrid (gridToPixelX 4 7) (gridToPixelY 4) = (4, 7 + 4 % 2) :=
  c3_roundtrip_parity 4 7

/-- C3 (counterexample).  The claim fails at the valid cell `(1, 0)`:
the round trip returns `(1, 1)`. -/
theorem c3_roundtrip_counterexample :
    pixelToGrid (gridToPixelX 1 0) (gridToPixelY 1) = (1, 1) ∧
    ((1, 1) : ℤ × ℤ) ≠ ((1, 0) : ℤ × ℤ) := by
  constructor
  · have h1 : gridToPixelX 1 0 = 40 := by
      unfold gridToPixelX bubbleRadius
      norm_num
    have h2 : gridToPixelY 1 = 54 := by
      unfold gridToPixelY bubbleRadius
      norm_num
    rw [h1, h2]
    unfold pixelToGrid jsRound bubbleRadius
    norm_num
  · decide

/-! ## Claims C4 and C8: snapping a colliding shot to a cell

V1 `handleBubbleCollision(hitRow, hitCol)` scans the empty neighbours of
the hit cell for the one whose lattice position is closest (strictly
smaller distance wins, first such neighbour on ties) to the shot's current
position; when no neighbour is empty it falls back to
`handleDirectPlacement`, which rounds the shot position to grid
coordinates and walks down the rows from there, placing at the first
empty slot (clamping the column to the row's valid range); if the walk
finds nothing, the shot is dropped with no grid change.
V2 `handleBubbleCollision` simply takes the *first* empty neighbour in
offset order, ignoring distances, and drops the shot when there is none. -/

/-- Loop body of the V1 nearest-empty-neighbour scan (`minDistance` starts
at `Infinity`, so the first empty candidate always wins against `none`). -/
def selStep (g : Grid) (sx sy : ℚ) (best : Option Cell) (p : Cell) :
    Option Cell :=
  if (g p).isNone then
    match best with
    | none => some p
    | some q =>
      if distSq (sx, sy) (cellPixel p) < distSq (sx, sy) (cellPixel q) then
        some p
      else best
  else best

/-- V1: the empty neighbour of the hit cell closest to the shot position. -/
def selectPlacementV1 (g : Grid) (hit : Cell) (sx sy : ℚ) : Option Cell :=
  (adjacentPositions hit).foldl (selStep g sx sy) none

/-- V2: the first empty neighbour of the hit cell, in offset order. -/
def selectPlacementV2 (g : Grid) (hit : Cell) : Option Cell :=
  (adjacentPositionsV2 hit).find? (fun p => (g p).isNone)

/-- The clamped column of `handleDirectPlacement`:
`Math.max(0, Math.min(gridCols - 1 - (r % 2), col))`. -/
def clampColFallback (r : Fin gridRows) (col : ℤ) : Fin gridCols :=
  ⟨(max 0 (min (19 - ((r.val % 2 : ℕ) : ℤ)) col)).toNat,
   by show _ < 20; omega⟩

/-- V1 `handleDirectPlacement`: round the shot position to grid
coordinates, then walk the rows downwards from `max(0, row)` and place at
the first empty slot (column clamped to the row); no empty slot leaves
everything unchanged. -/
def handleDirectPlacement (g : Grid) (sx sy : ℚ) (color : String)
    (st : GameStats) (go : Bool) : Grid × GameStats × Bool :=
  match (List.finRange gridRows).find? (fun r =>
      decide ((pixelToGrid sx sy).1 ≤ (r.val : ℤ)) &&
      (g (r, clampColFallback r (pixelToGrid sx sy).2)).isNone) with
  | some r =>
    checkMatchesV1
      (placeBubble g (r, clampColFallback r (pixelToGrid sx sy).2) color)
      (r, clampColFallback r (pixelToGrid sx sy).2) st go
  | none => (g, st, go)

/-- V1 `handleBubbleCollision`: place at the nearest empty neighbour and
resolve matches, or fall back to direct placement. -/
def handleBubbleCollisionV1 (g : Grid) (hit : Cell) (sx sy : ℚ)
    (color : String) (st : GameStats) (go : Bool) :
    Grid × GameStats × Bool :=
  match selectPlacementV1 g hit sx sy with
  | some p => checkMatchesV1 (placeBubble g p color) p st go
  | none => handleDirectPlacement g sx sy color st go

/-- V2 `handleBubbleCollision`: place at the first empty neighbour and
resolve matches, or drop the shot. -/
def handleBubbleCollisionV2 (g : Grid) (hit : Cell) (color : String)
    (st : GameStats) (go : Bool) : Grid × GameStats × Bool :=
  match selectPlacementV2 g hit with
  | some p => checkMatchesV2 (placeBubble g p color) p st go
  | none => (g, st, go)

theorem selStep_of_occupied (g : Grid) (sx sy : ℚ) {p : Cell}
    (h : (g p).isNone = false) (acc : Option Cell) :
    selStep g sx sy acc p = acc := by
  unfold selStep
  rw [h]
  simp

theorem selFold_none (g : Grid) (sx sy : ℚ) :
    ∀ l : List Cell, (∀ p ∈ l, (g p).isNone = false) →
      l.foldl (selStep g sx sy) none = none := by
  intro l
  induction l with
  | nil => intro _; rfl
  | cons p l' ih =>
    intro h
    rw [List.foldl_cons, selStep_of_occupied g sx sy (h p (List.mem_cons_self p l'))]
    exact ih (fun q hq => h q (List.mem_cons_of_mem _ hq))

theorem selStep_none_empty (g : Grid) (sx sy : ℚ) (p : Cell)
    (hp : (g p).isNone = true) : selStep g sx sy none p = some p := by
  simp [selStep, hp]

theorem selStep_some_of_lt (g : Grid) (sx sy : ℚ) (p q0 : Cell)
    (hp : (g p).isNone = true)
    (hlt : distSq (sx, sy) (cellPixel p) < distSq (sx, sy) (cellPixel q0)) :
    selStep g sx sy (some q0) p = some p := by
  simp [selStep, hp, hlt]

theorem selStep_some_of_ge (g : Grid) (sx sy : ℚ) (p q0 : Cell)
    (hp : (g p).isNone = true)
    (hge : ¬ distSq (sx, sy) (cellPixel p) < distSq (sx, sy) (cellPixel q0)) :
    selStep g sx sy (some q0) p = some q0 := by
  simp [selStep, hp, hge]

theorem selStep_isSome (g : Grid) (sx sy : ℚ) (p q0 : Cell) :
    ∃ x, selStep g sx sy (some q0) p = some x := by
  by_cases hp : (g p).isNone = true
  · by_cases hlt : distSq (sx, sy) (cellPixel p) < distSq (sx, sy) (cellPixel q0)
    · exact ⟨p, selStep_some_of_lt g sx sy p q0 hp hlt⟩
    · exact ⟨q0, selStep_some_of_ge g sx sy p q0 hp hlt⟩
  · exact ⟨q0, selStep_of_occupied g sx sy (Bool.eq_false_iff.mpr hp) (some q0)⟩

theorem selFold_isSome_acc (g : Grid) (sx sy : ℚ) :
    ∀ (l : List Cell) (q : Cell),
      (l.foldl (selStep g sx sy) (some q)).isSome = true := by
  intro l
  induction l with
  | nil => intro q; rfl
  | cons p l' ih =>
    intro q
    rw [List.foldl_cons]
    obtain ⟨x, hx⟩ := selStep_isSome g sx sy p q
    rw [hx]
    exact ih x

theorem selFold_some_of_empty (g : Grid) (sx sy : ℚ) :
    ∀ l : List Cell, (∃ p ∈ l, (g p).isNone = true) →
      ∀ acc, (l.foldl (selStep g sx sy) acc).isSome = true := by
  intro l
  induction l with
  | nil => rintro ⟨p, hp, _⟩; simp at hp
  | cons p l' ih =>
    rintro ⟨q, hq, hqe⟩ acc
    rw [List.foldl_cons]
    rcases List.mem_cons.mp hq with rfl | hq'
    · have h1 : ∃ x, selStep g sx sy acc q = some x := by
        cases acc with
        | none => exact ⟨q, selStep_none_empty g sx sy q hqe⟩
        | some q0 => exact selStep_isSome g sx sy q q0
      obtain ⟨x, hx⟩ := h1
      rw [hx]
      exact selFold_isSome_acc g sx sy l' x
    · exact ih ⟨q, hq', hqe⟩ _

theorem selFold_min (g : Grid) (sx sy : ℚ) :
    ∀ (l : List Cell) (acc : Option Cell) (x : Cell),
      l.foldl (selStep g sx sy) acc = some x →
      (acc = some x ∨ (x ∈ l ∧ (g x).isNone = true)) ∧
      (∀ p ∈ l, (g p).isNone = true →
        distSq (sx, sy) (cellPixel x) ≤ distSq (sx, sy) (cellPixel p)) ∧
      (∀ q, acc = some q →
        distSq (sx, sy) (cellPixel x) ≤ distSq (sx, sy) (cellPixel q)) := by
  intro l
  induction l with
  | nil =>
    intro acc x hx
    simp only [List.foldl_nil] at hx
    subst hx
    refine ⟨Or.inl rfl, by simp, ?_⟩
    intro q hq
    obtain rfl := Option.some.inj hq
    exact le_refl _
  | cons p l' ih =>
    intro acc x hx
    rw [List.foldl_cons] at hx
    obtain ⟨hmem, hminl, hminacc⟩ := ih (selStep g sx sy acc p) x hx
    by_cases hp : (g p).isNone = true
    · cases acc with
      | none =>
        rw [selStep_none_empty g sx sy p hp] at hmem hminacc
        have hxp : distSq (sx, sy) (cellPixel x) ≤ distSq (sx, sy) (cellPixel p) :=
          hminacc p rfl
        refine ⟨?_, ?_, ?_⟩
        · rcases hmem with hsx | ⟨hxl, hxe⟩
          · obtain rfl := Option.some.inj hsx
            exact Or.inr ⟨List.mem_cons_self _ _, hp⟩
          · exact Or.inr ⟨List.mem_cons_of_mem _ hxl, hxe⟩
        · intro q hq hqe
          rcases List.mem_cons.mp hq with rfl | hq'
          · exact hxp
          · exact hminl q hq' hqe
        · intro q hq
          exact Option.noConfusion hq
      | some q0 =>
        by_cases hlt : distSq (sx, sy) (cellPixel p) < distSq (sx, sy) (cellPixel q0)
        · rw [selStep_some_of_lt g sx sy p q0 hp hlt] at hmem hminacc
          have hxp : distSq (sx, sy) (cellPixel x) ≤ distSq (sx, sy) (cellPixel p) :=
            hminacc p rfl
          refine ⟨?_, ?_, ?_⟩
          · rcases hmem with hsx | ⟨hxl, hxe⟩
            · obtain rfl := Option.some.inj hsx
              exact Or.inr ⟨List.mem_cons_self _ _, hp⟩
            · exact Or.inr ⟨List.mem_cons_of_mem _ hxl, hxe⟩
          · intro q hq hqe
            rcases List.mem_cons.mp hq with rfl | hq'
            · exact hxp
            · exact hminl q hq' hqe
          · intro q hq
            obtain rfl := Option.some.inj hq
            exact le_trans hxp (le_of_lt hlt)
        · rw [selStep_some_of_ge g sx sy p q0 hp hlt] at hmem hminacc
          have hxq0 : distSq (sx, sy) (cellPixel x) ≤ distSq (sx, sy) (cellPixel q0) :=
            hminacc q0 rfl
          refine ⟨?_, ?_, ?_⟩
          · rcases hmem with hsx | ⟨hxl, hxe⟩
            · exact Or.inl hsx
            · exact Or.inr ⟨List.mem_cons_of_mem _ hxl, hxe⟩
          · intro q hq hqe
            rcases List.mem_cons.mp hq with rfl | hq'
            · exact le_trans hxq0 (le_of_not_lt hlt)
            · exact hminl q hq' hqe
          · intro q hq
            obtain rfl := Option.some.inj hq
            exact hxq0
    · have hstep : selStep g sx sy acc p = acc :=
        selStep_of_occupied g sx sy (Bool.eq_false_iff.mpr hp) acc
      rw [hstep] at hmem hminacc
      refine ⟨?_, ?_, hminacc⟩
      · rcases hmem with h | ⟨hxl, hxe⟩
        · exact Or.inl h
        · exact Or.inr ⟨List.mem_cons_of_mem _ hxl, hxe⟩
      · intro q hq hqe
        rcases List.mem_cons.mp hq with rfl | hq'
        · exact absurd hqe hp
        · exact hminl q hq' hqe

/-- Concrete grid for C4: only the hit cell `(1,1)` is occupied (teal), so
every neighbour is an empty candidate. -/
def gC4 : Grid := fun d =>
  if d = ((1, 1) : Cell) then some (mkGridBubble d teal) else none

/-- C4 (amended, V1 behaviour).  When a colliding shot has at least one empty
neighbour of the hit cell, V1 places the bubble at an empty neighbour whose
lattice pixel position minimises the Euclidean distance to the shot's
position, then resolves matches there. -/
theorem c4_nearest_placement (g : Grid) (hit : Cell) (sx sy : ℚ)
    (color : String) (st : GameStats) (go : Bool)
    (h : ∃ q ∈ adjacentPositions hit, (g q).isNone = true) :
    ∃ p, selectPlacementV1 g hit sx sy = some p ∧
      p ∈ adjacentPositions hit ∧ (g p).isNone = true ∧
      (∀ q ∈ adjacentPositions hit, (g q).isNone = true →
        distSq (sx, sy) (cellPixel p) ≤ distSq (sx, sy) (cellPixel q)) ∧
      handleBubbleCollisionV1 g hit sx sy color st go =
        checkMatchesV1 (placeBubble g p color) p st go := by
  have hsome : (selectPlacementV1 g hit sx sy).isSome = true :=
    selFold_some_of_empty g sx sy _ h none
  obtain ⟨p, hp⟩ := Option.isSome_iff_exists.mp hsome
  obtain ⟨hmem, hminl, _⟩ := selFold_min g sx sy (adjacentPositions hit) none p hp
  rcases hmem with hbad | ⟨hpl, hpe⟩
  · exact Option.noConfusion hbad
  · refine ⟨p, hp, hpl, hpe, hminl, ?_⟩
    unfold handleBubbleCollisionV1
    rw [hp]

/-- C4 (counterexample, V2 behaviour).  V2 picks the *first* empty neighbour
in offset order, not the nearest: with the shot at `(60, 80)` colliding with
the bubble at cell `(1,1)`, the empty candidate `(2,1)` is strictly closer
than the chosen cell `(0,1)`, yet the bubble is placed at `(0,1)`. -/
theorem c4_first_not_nearest_counterexample :
    selectPlacementV2 gC4 ((1, 1) : Cell) = some ((0, 1) : Cell) ∧
    ((2, 1) : Cell) ∈ adjacentPositionsV2 ((1, 1) : Cell) ∧
    (gC4 ((2, 1) : Cell)).isNone = true ∧
    distSq (60, 80) (cellPixel ((2, 1) : Cell)) <
      distSq (60, 80) (cellPixel ((0, 1) : Cell)) ∧
    ((handleBubbleCollisionV2 gC4 ((1, 1) : Cell) red stats0 false).1
        ((0, 1) : Cell)).isSome = true ∧
    ((handleBubbleCollisionV2 gC4 ((1, 1) : Cell) red stats0 false).1
        ((2, 1) : Cell)).isSome = false := by
  refine ⟨by decide, by decide, by decide, ?_, by decide, by decide⟩
  unfold distSq cellPixel gridToPixelX gridToPixelY bubbleRadius
  norm_num

theorem c4_nearest_placement_witness :
    ∃ p, selectPlacementV1 gC4 ((1, 1) : Cell) 60 80 = some p ∧
      p ∈ adjacentPositions ((1, 1) : Cell) ∧ (gC4 p).isNone = true ∧
      (∀ q ∈ adjacentPositions ((1, 1) : Cell), (gC4 q).isNone = true →
        distSq (60, 80) (cellPixel p) ≤ distSq (60, 80) (cellPixel q)) ∧
      handleBubbleCollisionV1 gC4 ((1, 1) : Cell) 60 80 red stats0 false =
        checkMatchesV1 (placeBubble gC4 p red) p stats0 false :=
  c4_nearest_placement gC4 ((1, 1) : Cell) 60 80 red stats0 false (by decide)

/-- Concrete grid for C8: the hit cell `(0,0)` and both of its V1 neighbours
`(0,1)` and `(1,0)` are occupied, so no empty adjacent candidate exists. -/
def gC8 : Grid := fun d =>
  if d = ((0, 0) : Cell) ∨ d = ((0, 1) : Cell) ∨ d = ((1, 0) : Cell)
  then some (mkGridBubble d red) else none

/-- A completely full grid (C8 witness): no candidate anywhere, and the
direct-placement walk also fails, so the shot really is discarded. -/
def gFull : Grid := fun d => some (mkGridBubble d red)

/-- C8 (amended).  A V1 colliding shot with no empty adjacent candidate is
*not* necessarily discarded: it falls back to `handleDirectPlacement`, and
the grid is left unchanged exactly when that downward walk also finds no
empty slot.  The V2 engine does discard such a shot with the grid, stats
and flag unchanged. -/
theorem c8_no_candidate_fallback (g : Grid) (hit : Cell) (sx sy : ℚ)
    (color : String) (st : GameStats) (go : Bool)
    (hfull : ∀ q ∈ adjacentPositions hit, (g q).isNone = false) :
    handleBubbleCollisionV1 g hit sx sy color st go
      = handleDirectPlacement g sx sy color st go ∧
    ((∀ r : Fin gridRows, (pixelToGrid sx sy).1 ≤ (r.val : ℤ) →
        (g (r, clampColFallback r (pixelToGrid sx sy).2)).isNone = false) →
      handleBubbleCollisionV1 g hit sx sy color st go = (g, st, go)) ∧
    (∀ hit2 : Cell, (∀ q ∈ adjacentPositionsV2 hit2, (g q).isNone = false) →
      handleBubbleCollisionV2 g hit2 color st go = (g, st, go)) := by
  have hsel : selectPlacementV1 g hit sx sy = none :=
    selFold_none g sx sy _ hfull
  have hfall : handleBubbleCollisionV1 g hit sx sy color st go
      = handleDirectPlacement g sx sy color st go := by
    unfold handleBubbleCollisionV1
    rw [hsel]
  refine ⟨hfall, ?_, ?_⟩
  · intro hscan
    rw [hfall]
    unfold handleDirectPlacement
    have hnone : (List.finRange gridRows).find? (fun r =>
        decide ((pixelToGrid sx sy).1 ≤ (r.val : ℤ)) &&
        (g (r, clampColFallback r (pixelToGrid sx sy).2)).isNone) = none := by
      rw [List.find?_eq_none]
      intro r _
      intro habs
      obtain ⟨h1, h2⟩ := Bool.and_eq_true_iff.mp habs
      rw [hscan r (of_decide_eq_true h1)] at h2
      exact Bool.false_ne_true h2
    rw [hnone]
  · intro hit2 h2
    have hsel2 : selectPlacementV2 g hit2 = none := by
      unfold selectPlacementV2
      rw [List.find?_eq_none]
      intro q hq habs
      rw [h2 q hq] at habs
      exact Bool.false_ne_true habs
    unfold handleBubbleCollisionV2
    rw [hsel2]

/-- C8 (counterexample).  With the hit cell `(0,0)` fully surrounded, the V1
fallback still places the shot: rounding the collision point `(100, 20)`
gives grid coordinates `(0, 2)`, the slot is empty, and the bubble lands
there — the grid is *not* unchanged. -/
theorem c8_fallback_places_counterexample :
    (∀ q ∈ adjacentPositions ((0, 0) : Cell), (gC8 q).isNone = false) ∧
    gC8 ((0, 2) : Cell) = none ∧
    ((handleBubbleCollisionV1 gC8 ((0, 0) : Cell) 100 20 teal stats0 false).1
        ((0, 2) : Cell)).isSome = true := by
  refine ⟨by decide, rfl, ?_⟩
  have hsel : selectPlacementV1 gC8 ((0, 0) : Cell) 100 20 = none :=
    selFold_none _ _ _ _ (by decide)
  have hrc : pixelToGrid 100 20 = ((0 : ℤ), (2 : ℤ)) := by
    unfold pixelToGrid jsRound bubbleRadius
    norm_num
  unfold handleBubbleCollisionV1
  rw [hsel]
  unfold handleDirectPlacement
  rw [hrc]
  decide

theorem c8_no_candidate_fallback_witness :
    handleBubbleCollisionV1 gFull ((5, 5) : Cell) 100 20 red stats0 false
      = (gFull, stats0, false) :=
  (c8_no_candidate_fallback gFull ((5, 5) : Cell) 100 20 red stats0 false
    (fun _ _ => rfl)).2.1 (fun _ _ => rfl)

/-! ## Claim C5: points for a pop

Both engines award `matches.length * 100` for the popped component plus
`floating.length * 50` for the dropped bubbles; the session level never
enters the computation. -/

/-- Concrete grid for C5: a 3-cell red chain in row 0 and nothing else. -/
def gC5 : Grid := fun d =>
  if d = ((0, 0) : Cell) ∨ d = ((0, 1) : Cell) ∨ d = ((0, 2) : Cell)
  then some (mkGridBubble d red) else none

/-- Stats of a session at level 2. -/
def stC5 : GameStats := { stats0 with level := 2 }

/-- C5 (counterexample).  Popping a 3-chain while the session is at level 2
awards 300 points, not `3 × 100 × 2 = 600`: the level multiplier of the
claim does not exist in the code. -/
theorem c5_no_level_multiplier_counterexample :
    stC5.level = 2 ∧
    (findConnectedBubbles gC5 ((0, 2) : Cell) red).length = 3 ∧
    (checkMatchesV1 gC5 ((0, 2) : Cell) stC5 false).2.1.score = 300 ∧
    ¬ (300 = 3 * 100 * stC5.level) :=
  ⟨rfl, by decide, by decide, by decide⟩

/-- C5 (amended).  A pop of a component of size `n` awards
`n * 100 + floating * 50` points on top of the current score, for *every*
value of the session level: the points are level-independent, with a fixed
100 points per popped bubble and 50 per dropped bubble. -/
theorem c5_points_level_independent (g : Grid) (c : Cell) (b : Bubble)
    (st : GameStats) (go : Bool) (hb : g c = some b)
    (h3 : 3 ≤ (findConnectedBubbles g c b.color).length) :
    (checkMatchesV1 g c st go).2.1.score =
      st.score + ((findConnectedBubbles g c b.color).length * 100 +
        (findFloatingBubbles
          (eraseCells g (findConnectedBubbles g c b.color))).length * 50) ∧
    (∀ L : Nat,
      (checkMatchesV1 g c { st with level := L } go).2.1.score =
        st.score + ((findConnectedBubbles g c b.color).length * 100 +
          (findFloatingBubbles
            (eraseCells g (findConnectedBubbles g c b.color))).length * 50)) := by
  constructor
  · unfold checkMatchesV1
    rw [hb]
    simp only
    rw [if_pos h3]
  · intro L
    unfold checkMatchesV1
    rw [hb]
    simp only
    rw [if_pos h3]

theorem c5_points_level_independent_witness :
    (checkMatchesV1 gC5 ((0, 2) : Cell) stC5 false).2.1.score =
      stC5.score + ((findConnectedBubbles gC5 ((0, 2) : Cell) red).length * 100 +
        (findFloatingBubbles
          (eraseCells gC5 (findConnectedBubbles gC5 ((0, 2) : Cell) red))).length * 50) ∧
    (∀ L : Nat,
      (checkMatchesV1 gC5 ((0, 2) : Cell) { stC5 with level := L } false).2.1.score =
        stC5.score + ((findConnectedBubbles gC5 ((0, 2) : Cell) red).length * 100 +
          (findFloatingBubbles
            (eraseCells gC5 (findConnectedBubbles gC5 ((0, 2) : Cell) red))).length * 50)) :=
  c5_points_level_independent gC5 ((0, 2) : Cell)
    (mkGridBubble ((0, 2) : Cell) red) stC5 false rfl (by decide)

/-! ## Claim C6: bottom-row game over

Only V2's `countBubblesLeft` inspects the bottom row, and it only runs
inside `checkMatches` when a pop of at least 3 actually happened (and on
level creation).  A placement that triggers no pop never runs the check,
so a bubble can sit in the bottom threshold row with the session still
playing.  V1's `countBubblesLeft` has no bottom-row test at all. -/

theorem maxOcc_fold_mono (g : Grid) :
    ∀ (l : List Cell) (acc : Nat),
      acc ≤ l.foldl
        (fun m d => if occupiedB g d && decide (m < d.1.val) then d.1.val else m)
        acc := by
  intro l
  induction l with
  | nil => intro acc; exact le_refl _
  | cons p l' ih =>
    intro acc
    rw [List.foldl_cons]
    refine le_trans ?_ (ih _)
    split
    · rename_i h
      exact le_of_lt (of_decide_eq_true (Bool.and_eq_true_iff.mp h).2)
    · exact le_refl _

theorem maxOcc_fold_ge_mem (g : Grid) :
    ∀ (l : List Cell) (acc : Nat) (d : Cell), d ∈ l → occupiedB g d = true →
      d.1.val ≤ l.foldl
        (fun m e => if occupiedB g e && decide (m < e.1.val) then e.1.val else m)
        acc := by
  intro l
  induction l with
  | nil => intro acc d hd; simp at hd
  | cons p l' ih =>
    intro acc d hd hocc
    rcases List.mem_cons.mp hd with rfl | hd'
    · rw [List.foldl_cons]
      refine le_trans ?_ (maxOcc_fold_mono g l' _)
      rw [hocc]
      by_cases hlt : acc < d.1.val
      · rw [if_pos (by simp [hlt])]
      · rw [if_neg (by simp [hlt])]
        omega
    · rw [List.foldl_cons]
      exact ih _ d hd' hocc

theorem maxOccupiedRow_ge (g : Grid) (d : Cell) (hocc : (g d).isSome = true) :
    d.1.val ≤ maxOccupiedRow g :=
  maxOcc_fold_ge_mem g allCells 0 d (mem_allCells d) hocc

/-- C6 (amended).  The game-over flag changes only when a pop of size ≥ 3
resolves: a placement with no match (or at an empty cell) leaves the flag
unchanged even if the bottom row is occupied; when a pop resolves, the
flag is recomputed by V2's `countBubblesLeft` on the resolved grid; and
that check does flag game over whenever any bubble occupies the bottom
threshold row `gridRows - 1 = 11` (or the grid is empty). -/
theorem c6_gameover_only_on_match (g : Grid) (c : Cell)
    (st : GameStats) (go : Bool) :
    (∀ b, g c = some b → (findConnectedBubblesV2 g c b.color).length < 3 →
      (checkMatchesV2 g c st go).2.2 = go) ∧
    (g c = none → (checkMatchesV2 g c st go).2.2 = go) ∧
    (∀ b, g c = some b → 3 ≤ (findConnectedBubblesV2 g c b.color).length →
      (checkMatchesV2 g c st go).2.2 =
        countBubblesLeftV2
          (eraseCells (eraseCells g (findConnectedBubblesV2 g c b.color))
            (findFloatingBubblesV2
              (eraseCells g (findConnectedBubblesV2 g c b.color)))) go) ∧
    (∀ g2 : Grid, ∀ go2 : Bool, ∀ d : Cell,
      d.1.val = 11 → (g2 d).isSome = true →
      countBubblesLeftV2 g2 go2 = true) := by
  refine ⟨?_, ?_, ?_, ?_⟩
  · intro b hb hlt
    unfold checkMatchesV2
    rw [hb]
    simp only
    rw [if_neg (by omega)]
  · intro hb
    unfold checkMatchesV2
    rw [hb]
  · intro b hb h3
    unfold checkMatchesV2
    rw [hb]
    simp only
    rw [if_pos h3]
  · intro g2 go2 d hd hocc
    have h11 : 11 ≤ maxOccupiedRow g2 := hd ▸ maxOccupiedRow_ge g2 d hocc
    unfold countBubblesLeftV2
    have : decide (gridRows - 1 ≤ maxOccupiedRow g2) = true :=
      decide_eq_true (by exact h11)
    rw [this]
    simp

/-- Concrete grid for C6: bubbles at `(10,0)`, `(9,0)` and `(10,1)`, so that
a shot colliding with `(10,0)` is placed at its first empty neighbour,
which is the bottom-row cell `(11,0)`. -/
def gC6 : Grid := fun d =>
  if d = ((10, 0) : Cell) ∨ d = ((9, 0) : Cell) ∨ d = ((10, 1) : Cell)
  then some (mkGridBubble d teal) else none

/-- C6 (counterexample).  A V2 shot resolved into the bottom threshold row
`gridRows - 1 = 11` without forming a match leaves the game-over flag
`false`: the bottom-row check does not run on placements that pop
nothing. -/
theorem c6_bottom_row_no_gameover_counterexample :
    ((handleBubbleCollisionV2 gC6 ((10, 0) : Cell) red stats0 false).1
        ((11, 0) : Cell)).isSome = true ∧
    (handleBubbleCollisionV2 gC6 ((10, 0) : Cell) red stats0 false).2.2
      = false :=
  ⟨by decide, by decide⟩

/-- Concrete grid for the C6 witness: one bubble in the bottom row. -/
def gRow11 : Grid := fun d =>
  if d = ((11, 0) : Cell) then some (mkGridBubble d red) else none

theorem c6_gameover_only_on_match_witness :
    countBubblesLeftV2 gRow11 false = true :=
  (c6_gameover_only_on_match gRow11 ((11, 0) : Cell) stats0 false).2.2.2
    gRow11 false ((11, 0) : Cell) rfl (by decide)

/-! ## Engine state, shooting and the turn sequence (claims C7 and C10)

The projectile record stores the direction to the target unnormalised
(`dirx`, `diry`, `speed`); the source stores
`vx = dirx/dist * speed, vy = diry/dist * speed` with
`dist = Math.sqrt(dirx² + diry²)`.  No verified claim depends on the
normalised components, and the normalisation is irrational, so the
embedding keeps the exact data the source computes it from. -/

/-- The transient `shootingBubble` record. -/
structure ShotBubble where
  x : ℚ
  y : ℚ
  dirx : ℚ
  diry : ℚ
  speed : ℚ
  color : String
  active : Bool
deriving DecidableEq, Repr

/-- An AI aim target (`{x, y, row, col}` as pushed by
`findPotentialTargets`). -/
structure AimTarget where
  x : ℚ
  y : ℚ
  row : Fin gridRows
  col : Fin gridCols
deriving DecidableEq, Repr

/-- The mutable instance fields of the engine that the turn sequence
reads and writes (canvas/rendering fields omitted; `width`/`height` are the
canvas dimensions, `shooterX`/`shooterY` the shooter position derived from
them in the constructor). -/
structure EngineState where
  grid : Grid
  currentBubble : Option Bubble
  nextBubble : Option Bubble
  shootingBubble : Option ShotBubble
  aiMode : Bool
  showPath : Bool
  isPaused : Bool
  gameOver : Bool
  stats : GameStats
  currentPath : List (ℚ × ℚ)
  width : ℚ
  height : ℚ
  shooterX : ℚ
  shooterY : ℚ

/-- `this.shootingBubble?.active` (false when no projectile exists). -/
def shotActive (s : EngineState) : Bool :=
  match s.shootingBubble with
  | some sb => sb.active
  | none => false

/-- V1 `shoot()`: rejected when there is no current bubble, a projectile is
active, the session is paused, or the game is over; otherwise increments
the shot counter and dispatches a projectile towards the AI path's second
waypoint (in AI mode with a path) or straight up
(`(shooterX, shooterY - 100)`). -/
def shootV1 (s : EngineState) : EngineState :=
  match s.currentBubble with
  | none => s
  | some cb =>
    if shotActive s || s.isPaused || s.gameOver then s
    else
      let target : ℚ × ℚ :=
        if s.aiMode then
          match s.currentPath with
          | _ :: p :: _ => p
          | _ => (s.shooterX, s.shooterY - 100)
        else (s.shooterX, s.shooterY - 100)
      { s with
        stats := { s.stats with shots := s.stats.shots + 1 },
        shootingBubble := some
          { x := s.shooterX, y := s.shooterY,
            dirx := target.1 - s.shooterX, diry := target.2 - s.shooterY,
            speed := 12, color := cb.color, active := true } }

/-- V2 `handleClick(x, y)`: fires a manual shot towards the click point
whenever AI mode is off and no projectile is active — there is no check of
`isPaused` or `gameOver` in this variant. -/
def handleClickV2 (s : EngineState) (x y : ℚ) : EngineState :=
  if !s.aiMode && !shotActive s then
    { s with
      shootingBubble := some
        { x := s.shooterX, y := s.shooterY,
          dirx := x - s.shooterX, diry := y - s.shooterY,
          speed := 15,
          color := (match s.currentBubble with
                    | some cb => cb.color
                    | none => "#ff6b6b"),
          active := true },
      stats := { s.stats with shots := s.stats.shots + 1 } }
  else s

/-- V1 `findPotentialTargets`: for every grid bubble of the current color,
every empty adjacent position, with its lattice pixel coordinates. -/
def findPotentialTargetsV1 (g : Grid) (color : String) : List AimTarget :=
  allCells.flatMap (fun d =>
    match g d with
    | some b =>
      if b.color == color then
        (adjacentPositions d).filterMap (fun p =>
          if (g p).isNone then
            some { x := gridToPixelX (p.1 : ℤ) (p.2 : ℤ),
                   y := gridToPixelY (p.1 : ℤ), row := p.1, col := p.2 }
          else none)
      else []
    | none => [])

/-- The cells scanned by V1 `findBestTarget`'s fallback:
rows `0 ≤ r < min(8, gridRows)`, columns `0 ≤ k < gridCols - r % 2`,
row-major. -/
def fallbackCells : List Cell :=
  (List.finRange gridRows).flatMap (fun r =>
    if r.val < 8 then
      (List.finRange gridCols).filterMap (fun k =>
        if k.val < 20 - r.val % 2 then some (r, k) else none)
    else [])

/-- V1 `findBestTarget`: the potential target closest to the shooter
(strictly smaller distance wins, first wins ties); when no potential
target exists, the first empty cell of the fallback scan. -/
def findBestTargetV1 (g : Grid) (color : String) (sx sy : ℚ) :
    Option AimTarget :=
  match findPotentialTargetsV1 g color with
  | [] =>
    (fallbackCells.find? (fun d => (g d).isNone)).map (fun d =>
      { x := gridToPixelX (d.1 : ℤ) (d.2 : ℤ),
        y := gridToPixelY (d.1 : ℤ), row := d.1, col := d.2 })
  | t0 :: rest =>
    some ((t0 :: rest).foldl (fun best t =>
      if distSq (sx, sy) (t.x, t.y) < distSq (sx, sy) (best.x, best.y) then t
      else best) t0)

/-- V1 `calculateAIPath`: count the A* invocation and store a straight
two-point path to the best target (or clear the path when none exists). -/
def calculateAIPathV1 (s : EngineState) : EngineState :=
  match s.currentBubble with
  | none => s
  | some cb =>
    match findBestTargetV1 s.grid cb.color s.shooterX s.shooterY with
    | some t =>
      { s with
        stats := { s.stats with
          astarCalculations := s.stats.astarCalculations + 1,
          pathLength := 2 },
        currentPath := [(s.shooterX, s.shooterY), (t.x, t.y)] }
    | none =>
      { s with
        stats := { s.stats with
          astarCalculations := s.stats.astarCalculations + 1,
          pathLength := 0 },
        currentPath := [] }

/-- V1 `finishShot`: clear the projectile, promote the next bubble, draw a
fresh bubble (randomness passed in as `fresh`), recompute the accuracy
stat and the AI path. -/
def finishShotV1 (s : EngineState) (fresh : Bubble) : EngineState :=
  calculateAIPathV1
    { s with
      shootingBubble := none,
      currentBubble := s.nextBubble,
      nextBubble := some fresh,
      stats := { s.stats with
        accuracy := jsRound
          ((s.stats.score : ℚ) / ((max 1 (s.stats.shots * 100) : ℕ) : ℚ)
            * 100) } }

/-- C7 (amended).  V1 `shoot()` is a strict no-op (the whole state is
unchanged, so no projectile is dispatched and the shot counter does not
move) whenever a projectile is in flight, the session is paused, or the
game is over.  V2 `handleClick` ignores input only when AI mode is on or
a projectile is in flight; it has no pause or game-over guard. -/
theorem c7_guard_behaviour :
    (∀ s : EngineState,
      shotActive s = true ∨ s.isPaused = true ∨ s.gameOver = true →
      shootV1 s = s) ∧
    (∀ s : EngineState, ∀ x y : ℚ,
      s.aiMode = true ∨ shotActive s = true →
      handleClickV2 s x y = s) := by
  constructor
  · intro s h
    unfold shootV1
    split
    · rfl
    · have hc : (shotActive s || s.isPaused || s.gameOver) = true := by
        rcases h with h | h | h <;> simp [h]
      rw [if_pos hc]
  · intro s x y h
    unfold handleClickV2
    have hc : (!s.aiMode && !shotActive s) = false := by
      rcases h with h | h <;> simp [h]
    simp [hc]

/-- The fresh shooter bubble used in concrete engine states. -/
def shooterBubble0 : Bubble :=
  { x := 400, y := 560, color := red, radius := bubbleRadius }

/-- A paused manual-mode state with a current bubble and no projectile. -/
def sC7 : EngineState :=
  { grid := fun _ => none, currentBubble := some shooterBubble0,
    nextBubble := some shooterBubble0, shootingBubble := none,
    aiMode := false, showPath := true, isPaused := true, gameOver := false,
    stats := stats0, currentPath := [], width := 800, height := 600,
    shooterX := 400, shooterY := 560 }

/-- `sC7` with AI mode on (for the witness of the V2 click guard). -/
def sC7AI : EngineState := { sC7 with aiMode := true }

/-- C7 (counterexample).  V2 `handleClick` while the session is paused is
*not* a no-op: it dispatches a projectile and increments the shot
counter. -/
theorem c7_paused_click_fires_counterexample :
    sC7.isPaused = true ∧
    (handleClickV2 sC7 100 100).stats.shots = sC7.stats.shots + 1 ∧
    shotActive (handleClickV2 sC7 100 100) = true :=
  ⟨rfl, rfl, rfl⟩

theorem c7_guard_behaviour_witness :
    shootV1 sC7 = sC7 ∧ handleClickV2 sC7AI 100 100 = sC7AI :=
  ⟨c7_guard_behaviour.1 sC7 (Or.inr (Or.inl rfl)),
   c7_guard_behaviour.2 sC7AI 100 100 (Or.inl rfl)⟩

/-! ## Claim C10: there is no forced-drop mechanic

Neither engine variant has a shots-until-drop counter, a row shift or a
ceiling-row spawner: `shoot` and `finishShot` never write to the grid. -/

theorem calculateAIPathV1_grid (s : EngineState) :
    (calculateAIPathV1 s).grid = s.grid := by
  unfold calculateAIPathV1
  split
  · rfl
  · split <;> rfl

/-- C10 (amended).  Shooting never shifts the grid: `shoot()` and
`finishShot()` leave every grid cell exactly as it was, for every state
and every number of shots already taken; the engine has no forced-drop
counter. -/
theorem c10_no_forced_drop :
    (∀ s : EngineState, (shootV1 s).grid = s.grid) ∧
    (∀ s : EngineState, ∀ fresh : Bubble,
      (finishShotV1 s fresh).grid = s.grid) := by
  constructor
  · intro s
    unfold shootV1
    split
    · rfl
    · split <;> rfl
  · intro s fresh
    unfold finishShotV1
    rw [calculateAIPathV1_grid]

/-- Modelled from the spec: "shift every row down by one, spawn a fresh
partially-random row at the ceiling" — the grid the claim says the next
shot after `shotsPerDrop` shots should produce.  Used only to state the
counterexample; no such transformation exists in the source. -/
def shiftDownSpec (g : Grid) (newTop : Fin gridCols → Option Bubble) :
    Grid := fun d =>
  match h : d.1.val with
  | 0 => newTop d.2
  | n+1 => g (⟨n, by omega⟩, d.2)

/-- Grid with a single bubble at the ceiling cell `(0,0)`. -/
def gDrop : Grid := fun d =>
  if d = ((0, 0) : Cell) then some (mkGridBubble d red) else none

/-- A playing manual-mode state with 5 shots already taken. -/
def sC10 : EngineState :=
  { grid := gDrop, currentBubble := some shooterBubble0,
    nextBubble := some shooterBubble0, shootingBubble := none,
    aiMode := false, showPath := true, isPaused := false, gameOver := false,
    stats := { stats0 with shots := 5 }, currentPath := [],
    width := 800, height := 600, shooterX := 400, shooterY := 560 }

/-- C10 (counterexample).  Whatever value `shotsPerDrop` is supposed to
have, the next shot after any number of accepted shots leaves the grid
identical — in particular it does not equal the row-shifted grid the
claim demands (cell `(1,0)` stays empty instead of receiving the bubble
from `(0,0)`). -/
theorem c10_no_shift_counterexample :
    sC10.stats.shots = 5 ∧
    (shootV1 sC10).grid = sC10.grid ∧
    (shootV1 sC10).grid ((1, 0) : Cell) = none ∧
    shiftDownSpec sC10.grid (fun _ => none) ((1, 0) : Cell)
      = some (mkGridBubble ((0, 0) : Cell) red) ∧
    (none : Option Bubble) ≠ some (mkGridBubble ((0, 0) : Cell) red) :=
  ⟨rfl, rfl, rfl, rfl, by decide⟩

/-! ## Claim C9: the A* path search (`AStarPathfinder.findPath`)

The search explores a sampled continuous space: each node carries a point,
`g`/`h`/`f` scores and a predecessor link.  The transcendental parts of the
source (`Math.cos`/`Math.sin` in `getNeighbors`, `Math.sqrt` in
`distance`) are abstracted into the two function parameters `dist` and
`neighbors` over which every statement below is universally quantified —
the actual Euclidean metric and angle-sampled neighbour generator are one
instantiation.  A node's `parent` reference (`undefined` on roots) is the
two constructors `root`/`child`; in the source an open node can be mutated
in place, but a node is only ever mutated *before* it is popped into the
closed set and only closed nodes are taken as parents, so the value
semantics used here agrees with the source's reference semantics. -/

/-- A point of the play field. -/
abbrev Point : Type := ℚ × ℚ

/-- A `PathNode`: coordinates, g/h/f scores, and an optional parent
(`root` = `parent: undefined`). -/
inductive PNode : Type where
  | root (x y g h f : ℚ)
  | child (x y g h f : ℚ) (parent : PNode)

/-- The node's x coordinate. -/
def PNode.px : PNode → ℚ
  | .root x _ _ _ _ => x
  | .child x _ _ _ _ _ => x

/-- The node's y coordinate. -/
def PNode.py : PNode → ℚ
  | .root _ y _ _ _ => y
  | .child _ y _ _ _ _ => y

/-- The node's accumulated cost `gScore`. -/
def PNode.gScore : PNode → ℚ
  | .root _ _ g _ _ => g
  | .child _ _ g _ _ _ => g

/-- The node's heuristic estimate `hScore`. -/
def PNode.hScore : PNode → ℚ
  | .root _ _ _ h _ => h
  | .child _ _ _ h _ _ => h

/-- The node's total score `fScore`. -/
def PNode.fScore : PNode → ℚ
  | .root _ _ _ _ f => f
  | .child _ _ _ _ f _ => f

/-- The root of the predecessor chain. -/
def chainRoot : PNode → PNode
  | n@(.root _ _ _ _ _) => n
  | .child _ _ _ _ _ par => chainRoot par

/-- `reconstructPath`: walk the predecessor links, building the path
root-first (the source `unshift`s while walking). -/
def reconstructPath : PNode → List PNode
  | n@(.root _ _ _ _ _) => [n]
  | n@(.child _ _ _ _ _ par) => reconstructPath par ++ [n]

/-- The spatial-proximity node identity of `isInSet`/`findInSet`:
both coordinates differ by less than 10. -/
def nearNode (n : PNode) (x y : ℚ) : Bool :=
  decide (|n.px - x| < 10) && decide (|n.py - y| < 10)

/-- `isInSet(node, set)`. -/
def isInSet (x y : ℚ) (set : List PNode) : Bool :=
  set.any (fun m => nearNode m x y)

/-- Index of the first node within tolerance (`findInSet`, by position so
that the in-place update can be modelled as a list update). -/
def findIdxInSet (x y : ℚ) (set : List PNode) : Option Nat :=
  set.findIdx? (fun m => nearNode m x y)

/-- The linear scan for the open node with the lowest `fScore`
(first strictly smaller index wins, as in the source loop). -/
def minFIdxAux : List PNode → ℚ → Nat → Nat → Nat
  | [], _, _, best => best
  | n :: rest, bestF, i, best =>
    if n.fScore < bestF then minFIdxAux rest n.fScore (i+1) i
    else minFIdxAux rest bestF (i+1) best

/-- Index of the lowest-`fScore` node of `hd :: tl`. -/
def minFIdx (hd : PNode) (tl : List PNode) : Nat :=
  minFIdxAux tl hd.fScore 1 0

/-- Processing of one candidate neighbour point: skip when within tolerance
of a closed node; otherwise either append a fresh node (parent = current)
or, when an open node is within tolerance and the tentative `g` is
smaller, update that node's `g`, `f` and parent in place. -/
def processNeighbor (dist : Point → Point → ℚ) (goal : Point)
    (current : PNode) (closed : List PNode)
    (open0 : List PNode) (np : Point) : List PNode :=
  if isInSet np.1 np.2 closed then open0
  else
    match findIdxInSet np.1 np.2 open0 with
    | none =>
      open0 ++ [PNode.child np.1 np.2
        (current.gScore + dist (current.px, current.py) np)
        (dist np goal)
        (current.gScore + dist (current.px, current.py) np + dist np goal)
        current]
    | some i =>
      match open0.get? i with
      | none => open0
      | some ex =>
        if current.gScore + dist (current.px, current.py) np < ex.gScore then
          open0.set i (PNode.child ex.px ex.py
            (current.gScore + dist (current.px, current.py) np)
            ex.hScore
            (current.gScore + dist (current.px, current.py) np + ex.hScore)
            current)
        else open0

/-- The main loop of `findPath`: pop the lowest-`fScore` open node, close
it, succeed when it is within `2 × bubbleRadius` of the goal, otherwise
expand its neighbours; when the open set empties or the iteration cap
(fuel, 500 in the source) runs out, return the direct two-point fallback
`[startNode, goalNode]`. -/
def findPathLoop (dist : Point → Point → ℚ) (neighbors : Point → List Point)
    (goal : Point) (radius : ℚ) (startNode goalNode : PNode) :
    Nat → List PNode → List PNode → List PNode
  | _, [], _ => [startNode, goalNode]
  | 0, _ :: _, _ => [startNode, goalNode]
  | fuel+1, o :: os, closed =>
    if dist (((o :: os).getD (minFIdx o os) o).px,
             ((o :: os).getD (minFIdx o os) o).py) goal ≤ radius * 2 then
      reconstructPath ((o :: os).getD (minFIdx o os) o)
    else
      findPathLoop dist neighbors goal radius startNode goalNode fuel
        ((neighbors (((o :: os).getD (minFIdx o os) o).px,
                     ((o :: os).getD (minFIdx o os) o).py)).foldl
          (processNeighbor dist goal ((o :: os).getD (minFIdx o os) o)
            (closed ++ [(o :: os).getD (minFIdx o os) o]))
          ((o :: os).eraseIdx (minFIdx o os)))
        (closed ++ [(o :: os).getD (minFIdx o os) o])

/-- The start node: `g = 0`, `h = dist(start, goal)`, `f = g + h`. -/
def startNodeP (dist : Point → Point → ℚ) (start goal : Point) : PNode :=
  PNode.root start.1 start.2 0 (dist start goal) (0 + dist start goal)

/-- The fallback goal node `{...goal, gScore: 0, hScore: 0, fScore: 0}`. -/
def goalNodeP (goal : Point) : PNode :=
  PNode.root goal.1 goal.2 0 0 0

/-- `findPath(start, goal, obstacles, options)`, with the metric and the
(obstacle- and bounds-aware) neighbour generator as parameters. -/
def findPathP (dist : Point → Point → ℚ) (neighbors : Point → List Point)
    (start goal : Point) (radius : ℚ) : List PNode :=
  findPathLoop dist neighbors goal radius
    (startNodeP dist start goal) (goalNodeP goal)
    500 [startNodeP dist start goal] []

theorem reconstructPath_cons (n : PNode) :
    ∃ t, reconstructPath n = chainRoot n :: t := by
  induction n with
  | root x y g h f => exact ⟨[], rfl⟩
  | child x y g h f par ih =>
    obtain ⟨t, ht⟩ := ih
    exact ⟨t ++ [PNode.child x y g h f par], by
      simp [reconstructPath, chainRoot, ht]⟩

theorem reconstructPath_getLast (n : PNode) :
    (reconstructPath n).getLast? = some n := by
  cases n with
  | root x y g h f => rfl
  | child x y g h f par =>
    show (reconstructPath par ++ [PNode.child x y g h f par]).getLast?
      = some (PNode.child x y g h f par)
    rw [List.getLast?_concat]

theorem getD_mem (l : List PNode) (i : Nat) (d : PNode) (hd : d ∈ l) :
    l.getD i d ∈ l := by
  rw [List.getD_eq_getD_get?]
  cases hget : l.get? i with
  | none => simpa using hd
  | some a =>
    have := List.get?_mem hget
    simpa using this

theorem processNeighbor_rooted (dist : Point → Point → ℚ) (goal : Point)
    (current : PNode) (closed : List PNode) (start : PNode)
    (hcur : chainRoot current = start) :
    ∀ (open0 : List PNode) (np : Point),
      (∀ n ∈ open0, chainRoot n = start) →
      ∀ n ∈ processNeighbor dist goal current closed open0 np,
        chainRoot n = start := by
  intro open0 np hinv n hn
  unfold processNeighbor at hn
  split at hn
  · exact hinv n hn
  · split at hn
    · rcases List.mem_append.mp hn with h | h
      · exact hinv n h
      · obtain rfl : n = _ := by simpa using h
        simpa [chainRoot] using hcur
    · rename_i i hi
      split at hn
      · exact hinv n hn
      · rename_i ex hex
        split at hn
        · rcases List.mem_or_eq_of_mem_set hn with h | rfl
          · exact hinv n h
          · simpa [chainRoot] using hcur
        · exact hinv n hn

theorem foldl_processNeighbor_rooted (dist : Point → Point → ℚ)
    (goal : Point) (current : PNode) (closed : List PNode) (start : PNode)
    (hcur : chainRoot current = start) :
    ∀ (nps : List Point) (open0 : List PNode),
      (∀ n ∈ open0, chainRoot n = start) →
      ∀ n ∈ nps.foldl (processNeighbor dist goal current closed) open0,
        chainRoot n = start := by
  intro nps
  induction nps with
  | nil => intro open0 hinv; exact hinv
  | cons np rest ih =>
    intro open0 hinv
    rw [List.foldl_cons]
    exact ih _ (processNeighbor_rooted dist goal current closed start hcur
      open0 np hinv)

theorem findPathLoop_shape (dist : Point → Point → ℚ)
    (neighbors : Point → List Point) (goal : Point) (radius : ℚ)
    (startNode goalNode : PNode) :
    ∀ (fuel : Nat) (open0 closed : List PNode),
      (∀ n ∈ open0, chainRoot n = startNode) →
      findPathLoop dist neighbors goal radius startNode goalNode
          fuel open0 closed = [startNode, goalNode] ∨
      ∃ c, chainRoot c = startNode ∧
        dist (c.px, c.py) goal ≤ radius * 2 ∧
        findPathLoop dist neighbors goal radius startNode goalNode
          fuel open0 closed = reconstructPath c := by
  intro fuel
  induction fuel with
  | zero =>
    intro open0 closed hinv
    cases open0 <;> exact Or.inl rfl
  | succ fuel ih =>
    intro open0 closed hinv
    cases open0 with
    | nil => exact Or.inl rfl
    | cons o os =>
      have hcur : chainRoot ((o :: os).getD (minFIdx o os) o) = startNode :=
        hinv _ (getD_mem (o :: os) (minFIdx o os) o (List.mem_cons_self o os))
      simp only [findPathLoop]
      split
      · rename_i hgoal
        exact Or.inr ⟨_, hcur, hgoal, rfl⟩
      · refine ih _ _ ?_
        refine foldl_processNeighbor_rooted dist goal _ _ startNode hcur _ _ ?_
        intro n hn
        exact hinv n (List.Sublist.mem hn (List.eraseIdx_sublist (o :: os) (minFIdx o os)))

/-- C9 (amended).  For every metric, neighbour generator, start, goal and
radius, `findPath` (which terminates within the 500-iteration cap by
construction) returns a non-empty sequence whose first element is the
start node; the result is either exactly the direct two-point fallback
`[start, goal]`, or a reconstructed success path whose last node is within
`2 × bubbleRadius` of the goal.  A success path has at least one waypoint —
exactly one when the start itself is already within `2 × bubbleRadius` of
the goal, which is the one way the claimed lower bound of two waypoints
fails. -/
theorem c9_path_shape (dist : Point → Point → ℚ)
    (neighbors : Point → List Point) (start goal : Point) (radius : ℚ) :
    1 ≤ (findPathP dist neighbors start goal radius).length ∧
    (findPathP dist neighbors start goal radius).head?
      = some (startNodeP dist start goal) ∧
    (findPathP dist neighbors start goal radius
        = [startNodeP dist start goal, goalNodeP goal] ∨
      ∃ c, dist (c.px, c.py) goal ≤ radius * 2 ∧
        findPathP dist neighbors start goal radius = reconstructPath c ∧
        (findPathP dist neighbors start goal radius).getLast? = some c) := by
  have hshape := findPathLoop_shape dist neighbors goal radius
    (startNodeP dist start goal) (goalNodeP goal) 500
    [startNodeP dist start goal] []
    (by
      intro n hn
      obtain rfl : n = startNodeP dist start goal := by simpa using hn
      rfl)
  rcases hshape with hfall | ⟨c, hroot, hgoal, hsucc⟩
  · unfold findPathP
    rw [hfall]
    exact ⟨by simp, rfl, Or.inl rfl⟩
  · obtain ⟨t, ht⟩ := reconstructPath_cons c
    have hres : findPathP dist neighbors start goal radius = reconstructPath c := hsucc
    refine ⟨?_, ?_, Or.inr ⟨c, hgoal, hres, ?_⟩⟩
    · rw [hres, ht]
      simp
    · rw [hres, ht, hroot]
      rfl
    · rw [hres]
      exact reconstructPath_getLast c

/-- The constant-zero metric: it agrees with the Euclidean metric on every
pair of equal points, and with `start = goal` the run below only ever
evaluates the metric at `(start, start)`. -/
def dist0 : Point → Point → ℚ := fun _ _ => 0

/-- A neighbour generator returning no candidates (never consulted in the
run below). -/
def nbs0 : Point → List Point := fun _ => []

/-- C9 (counterexample).  With the start already within `2 × bubbleRadius`
of the goal (here `start = goal = (100, 100)`, Euclidean distance 0), the
very first iteration succeeds at the start node and `reconstructPath`
returns the single-element sequence `[startNode]` — fewer than the two
waypoints the claim promises. -/
theorem c9_single_point_counterexample :
    findPathP dist0 nbs0 (100, 100) (100, 100) 20
      = [startNodeP dist0 (100, 100) (100, 100)] ∧
    (findPathP dist0 nbs0 (100, 100) (100, 100) 20).length = 1 ∧
    ¬ (2 ≤ (findPathP dist0 nbs0 (100, 100) (100, 100) 20).length) := by
  have hrun : findPathP dist0 nbs0 (100, 100) (100, 100) 20
      = [startNodeP dist0 (100, 100) (100, 100)] := by
    unfold findPathP
    have h500 : (500 : Nat) = 499 + 1 := rfl
    rw [h500]
    simp only [findPathLoop]
    rw [if_pos (by norm_num [dist0])]
    rfl
  refine ⟨hrun, by rw [hrun]; rfl, by rw [hrun]; simp⟩

theorem c9_path_shape_witness :
    1 ≤ (findPathP dist0 nbs0 (0, 0) (5, 5) 20).length ∧
    (findPathP dist0 nbs0 (0, 0) (5, 5) 20).head?
      = some (startNodeP dist0 (0, 0) (5, 5)) ∧
    (findPathP dist0 nbs0 (0, 0) (5, 5) 20
        = [startNodeP dist0 (0, 0) (5, 5), goalNodeP (5, 5)] ∨
      ∃ c, dist0 (c.px, c.py) (5, 5) ≤ 20 * 2 ∧
        findPathP dist0 nbs0 (0, 0) (5, 5) 20 = reconstructPath c ∧
        (findPathP dist0 nbs0 (0, 0) (5, 5) 20).getLast? = some c) :=
  c9_path_shape dist0 nbs0 (0, 0) (5, 5) 20

theorem c10_no_forced_drop_witness :
    (shootV1 sC10).grid = sC10.grid ∧
    (finishShotV1 sC10 shooterBubble0).grid = sC10.grid :=
  ⟨c10_no_forced_drop.1 sC10, c10_no_forced_drop.2 sC10 shooterBubble0⟩

end BubbleShooter

